import Mathlib

/-!
Verification of the product-catalog service (store_api).

The usecase layer and the HTTP routers of `src/store/main.py` and
`src/store/controllers/product.py` are shallowly embedded below.  The
document store (MongoDB-style collection) is the external persistence
collaborator; it is modelled as a list of documents with a running
fresh-identifier counter, and its five primitive operations
(find-one, find-many-with-limit, insert-one, update-one, delete-one)
are modelled per the spec's persistence-collaborator contract.
Identifiers are modelled as naturals, prices as integers, timestamps
as naturals.
-/

/-- A persisted product document: identifier (assigned by the store),
name, price, and a nullable update timestamp. -/
structure Doc where
  id : Nat
  name : String
  price : Int
  updated_at : Option Nat
deriving Repr, DecidableEq

/-- Modelled from the spec: the document store, an opaque collection of
documents together with the next identifier it will assign. -/
structure Store where
  docs : List Doc
  nextId : Nat
deriving Repr, DecidableEq

/-- A price range condition as built by `ProductUsecase.query`:
an optional inclusive lower bound (Mongo `$gte`) and an optional
inclusive upper bound (Mongo `$lte`). -/
structure PriceCond where
  gte : Option Int
  lte : Option Int
deriving Repr, DecidableEq

/-- The filter documents the usecase passes to the store: the empty
filter, equality on `name`, equality on `_id`, or a price range. -/
inductive DocFilter where
  | empty : DocFilter
  | byName (n : String) : DocFilter
  | byId (i : Nat) : DocFilter
  | byPrice (c : PriceCond) : DocFilter
deriving Repr, DecidableEq

/-- Whether a price satisfies a range condition (both bounds inclusive,
a missing bound is unconstrained). -/
def PriceCond.sat (c : PriceCond) (p : Int) : Bool :=
  (match c.gte with
   | none => true
   | some m => decide (m ≤ p)) &&
  (match c.lte with
   | none => true
   | some m => decide (p ≤ m))

/-- Whether a document matches a filter. -/
def DocFilter.matches : DocFilter → Doc → Bool
  | .empty, _ => true
  | .byName n, d => d.name == n
  | .byId i, d => d.id == i
  | .byPrice c, d => c.sat d.price

/-- Model of `ProductModel.find_one(filter)`: the first document matching the
filter, if any. -/
def findOne (s : Store) (f : DocFilter) : Option Doc :=
  s.docs.find? f.matches

/-- Model of `ProductModel.find(filter)` followed by `to_list(length=limit)`:
all matching documents, capped at `limit`. -/
def findMany (s : Store) (f : DocFilter) (limit : Nat) : List Doc :=
  (s.docs.filter f.matches).take limit

/-- The result of `insert_one`: the identifier the store assigned. -/
structure InsertOneResult where
  inserted_id : Nat
deriving Repr, DecidableEq

/-- The result of `update_one`: how many documents matched the filter. -/
structure UpdateOneResult where
  matched_count : Nat
deriving Repr, DecidableEq

/-- The result of `delete_one`: how many documents were deleted. -/
structure DeleteOneResult where
  deleted_count : Nat
deriving Repr, DecidableEq

/-- Modelled from the spec: the creation input wire shape of
`store/schemas/product.py` (`ProductIn`): name and price, no
identifier, no timestamp. -/
structure ProductIn where
  name : String
  price : Int
deriving Repr, DecidableEq

/-- Modelled from the spec: the partial update body of
`store/schemas/product.py` (`ProductUpdate`): every field optional;
`none` models a field the caller left unset (null).  `body.dict()`
filtered to its non-null entries is represented by the structure
itself: a key is in the field-set exactly when the field is `some`. -/
structure ProductUpdate where
  name : Option String
  price : Option Int
  updated_at : Option Nat
deriving Repr, DecidableEq

/-- Model of `insert_one(body.dict())`: append a new document derived from the
creation input, with the fresh identifier and no timestamp yet
(the spec: nullable until first update). -/
def insertOne (s : Store) (body : ProductIn) : InsertOneResult × Store :=
  (⟨s.nextId⟩,
   ⟨s.docs ++ [⟨s.nextId, body.name, body.price, none⟩], s.nextId + 1⟩)

/-- Mongo `$set` with the non-null fields of the partial body: each
field present in the field-set overwrites the document's field, every
other field keeps its prior value.  `_id` is never in the field-set. -/
def applySet (u : ProductUpdate) (d : Doc) : Doc :=
  { id := d.id
    name := u.name.getD d.name
    price := u.price.getD d.price
    updated_at :=
      match u.updated_at with
      | some t => some t
      | none => d.updated_at }

/-- How `update_one` rewrites the first document matching the filter. -/
def setFirst (f : DocFilter) (u : ProductUpdate) : List Doc → List Doc
  | [] => []
  | d :: ds => if f.matches d then applySet u d :: ds else d :: setFirst f u ds

/-- Model of `ProductModel.update_one` with set-document `u`: apply the field-set
to the first matching document, report the matched count. -/
def updateOne (s : Store) (f : DocFilter) (u : ProductUpdate) :
    UpdateOneResult × Store :=
  (⟨if s.docs.any f.matches then 1 else 0⟩,
   ⟨setFirst f u s.docs, s.nextId⟩)

/-- How `delete_one` removes the first document matching the filter. -/
def removeFirst (f : DocFilter) : List Doc → List Doc
  | [] => []
  | d :: ds => if f.matches d then ds else d :: removeFirst f ds

/-- Model of `ProductModel.delete_one(filter)`: remove the first matching
document, report the deleted count. -/
def deleteOne (s : Store) (f : DocFilter) : DeleteOneResult × Store :=
  (⟨if s.docs.any f.matches then 1 else 0⟩,
   ⟨removeFirst f s.docs, s.nextId⟩)

/-- The domain errors of `store/core/exceptions.py`: `DuplicateException`
and `NotFoundException`, each carrying a message.  `internal` models an
unhandled Python exception (e.g. the `TypeError` that `ProductOut(**None)`
would raise if a re-fetch found nothing); it is provably unreachable. -/
inductive Err where
  | duplicate (message : String) : Err
  | notFound (message : String) : Err
  | internal : Err
deriving Repr, DecidableEq

instance {ε α} [DecidableEq ε] [DecidableEq α] : DecidableEq (Except ε α) := fun x y =>
  match x, y with
  | .ok a, .ok b =>
    if h : a = b then isTrue (congrArg Except.ok h)
    else isFalse (fun hc => h (Except.ok.inj hc))
  | .ok _, .error _ => isFalse (fun hc => Except.noConfusion hc)
  | .error _, .ok _ => isFalse (fun hc => Except.noConfusion hc)
  | .error a, .error b =>
    if h : a = b then isTrue (congrArg Except.error h)
    else isFalse (fun hc => h (Except.error.inj hc))

/-- An apostrophe, kept out of string literals. -/
def apos : String := (Char.ofNat 39).toString

/-- The conflict message of `ProductUsecase.create`. -/
def dupMsg (name : String) : String :=
  "Produto " ++ apos ++ name ++ apos ++ " já existe."

/-- The not-found message of `ProductUsecase.get/update/delete`. -/
def notFoundMsg (id : Nat) : String :=
  "Produto com id " ++ toString id ++ " não encontrado."

namespace ProductUsecase

/-- The usecase `create`: look up by exact name; on a hit raise
`DuplicateException`; otherwise insert, re-fetch by the assigned
identifier and return the full representation. -/
def create (s : Store) (body : ProductIn) : Except Err Doc × Store :=
  match findOne s (.byName body.name) with
  | some _ => (.error (.duplicate (dupMsg body.name)), s)
  | none =>
    let r := insertOne s body
    match findOne r.2 (.byId r.1.inserted_id) with
    | some created => (.ok created, r.2)
    | none => (.error .internal, r.2)

/-- The usecase `get`: fetch by identifier, `NotFoundException`
when no document matches. -/
def get (s : Store) (id : Nat) : Except Err Doc × Store :=
  match findOne s (.byId id) with
  | some product => (.ok product, s)
  | none => (.error (.notFound (notFoundMsg id)), s)

/-- The filter `ProductUsecase.query` builds: an empty filter when
neither bound is given, otherwise a price condition holding `$gte`
exactly when `min_price` is given and `$lte` exactly when `max_price`
is given. -/
def mkQueryFilter (min_price max_price : Option Int) : DocFilter :=
  if min_price.isSome || max_price.isSome then
    .byPrice ⟨min_price, max_price⟩
  else
    .empty

/-- The usecase `query`: execute the range filter, cap at 100. -/
def query (s : Store) (min_price max_price : Option Int) :
    List Doc × Store :=
  (findMany s (mkQueryFilter min_price max_price) 100, s)

/-- The usecase `update`: set the non-null fields of the body on
the document matching the identifier; `NotFoundException` when the
matched count is 0; otherwise re-fetch and return. -/
def update (s : Store) (id : Nat) (body : ProductUpdate) :
    Except Err Doc × Store :=
  let r := updateOne s (.byId id) body
  if r.1.matched_count == 0 then
    (.error (.notFound (notFoundMsg id)), r.2)
  else
    match findOne r.2 (.byId id) with
    | some updated_product => (.ok updated_product, r.2)
    | none => (.error .internal, r.2)

/-- The usecase `delete`: delete by identifier, `NotFoundException`
when the deleted count is 0. -/
def delete (s : Store) (id : Nat) : Except Err Unit × Store :=
  let r := deleteOne s (.byId id)
  if r.1.deleted_count == 0 then
    (.error (.notFound (notFoundMsg id)), r.2)
  else
    (.ok (), r.2)

end ProductUsecase

/-- An HTTP response body: a product, a product list, an empty body,
an error body `\x7bdetail: message\x7d`, or the framework's generic
payload for an unhandled exception. -/
inductive RespBody where
  | product (p : Doc) : RespBody
  | products (ps : List Doc) : RespBody
  | empty : RespBody
  | detail (message : String) : RespBody
  | internal : RespBody
deriving Repr, DecidableEq

/-- An HTTP response: status code and body. -/
structure Response where
  status : Nat
  body : RespBody
deriving Repr, DecidableEq

/-- The PATCH handlers' timestamp defaulting: when the body's
`updated_at` is null, inject the current time `now`. -/
def injectTimestamp (now : Nat) (body : ProductUpdate) : ProductUpdate :=
  if body.updated_at.isNone then { body with updated_at := some now } else body

-- The router of `src/store/main.py`.
namespace MainApp

/-- Handler for `POST /products/`: 201 with the created product; `DuplicateException`
mapped to 400 with the exception's message as detail. -/
def post (s : Store) (body : ProductIn) : Response × Store :=
  match ProductUsecase.create s body with
  | (.ok p, s₁) => (⟨201, .product p⟩, s₁)
  | (.error (.duplicate m), s₁) => (⟨400, .detail m⟩, s₁)
  | (.error _, s₁) => (⟨500, .internal⟩, s₁)

/-- Handler for `GET /products/\x7bid\x7d`: 200 with the product; `NotFoundException`
mapped to 404 with the exception's message as detail. -/
def get (s : Store) (id : Nat) : Response × Store :=
  match ProductUsecase.get s id with
  | (.ok p, s₁) => (⟨200, .product p⟩, s₁)
  | (.error (.notFound m), s₁) => (⟨404, .detail m⟩, s₁)
  | (.error _, s₁) => (⟨500, .internal⟩, s₁)

/-- Handler for `GET /products/`: 200 with the (possibly empty) list; no error
mapping — the usecase raises none. -/
def query (s : Store) (min_price max_price : Option Int) :
    Response × Store :=
  let r := ProductUsecase.query s min_price max_price
  (⟨200, .products r.1⟩, r.2)

/-- Handler for `PATCH /products/\x7bid\x7d`: default `updated_at` to the current time
when the body omitted it, then update; `NotFoundException` mapped to
404 with the exception's message as detail. -/
def patch (s : Store) (now : Nat) (id : Nat) (body : ProductUpdate) :
    Response × Store :=
  match ProductUsecase.update s id (injectTimestamp now body) with
  | (.ok p, s₁) => (⟨200, .product p⟩, s₁)
  | (.error (.notFound m), s₁) => (⟨404, .detail m⟩, s₁)
  | (.error _, s₁) => (⟨500, .internal⟩, s₁)

/-- Handler for `DELETE /products/\x7bid\x7d`: 204 with empty body; `NotFoundException`
mapped to 404 with the exception's message as detail. -/
def delete (s : Store) (id : Nat) : Response × Store :=
  match ProductUsecase.delete s id with
  | (.ok _, s₁) => (⟨204, .empty⟩, s₁)
  | (.error (.notFound m), s₁) => (⟨404, .detail m⟩, s₁)
  | (.error _, s₁) => (⟨500, .internal⟩, s₁)

end MainApp

-- The router of `src/store/controllers/product.py` (the draft
-- variant).  Its `post` handler has no `try/except`, so a
-- `DuplicateException` escapes to the framework as a generic server
-- error instead of being mapped to 400.
namespace Controllers

/-- Handler for `POST /products/` of the controllers router: no exception handling
around `usecase.create`. -/
def post (s : Store) (body : ProductIn) : Response × Store :=
  match ProductUsecase.create s body with
  | (.ok p, s₁) => (⟨201, .product p⟩, s₁)
  | (.error _, s₁) => (⟨500, .internal⟩, s₁)

/-- Handler for `GET /products/\x7bid\x7d` of the controllers router: as in `MainApp`. -/
def get (s : Store) (id : Nat) : Response × Store :=
  match ProductUsecase.get s id with
  | (.ok p, s₁) => (⟨200, .product p⟩, s₁)
  | (.error (.notFound m), s₁) => (⟨404, .detail m⟩, s₁)
  | (.error _, s₁) => (⟨500, .internal⟩, s₁)

/-- Handler for `PATCH /products/\x7bid\x7d` of the controllers router: as in `MainApp`. -/
def patch (s : Store) (now : Nat) (id : Nat) (body : ProductUpdate) :
    Response × Store :=
  match ProductUsecase.update s id (injectTimestamp now body) with
  | (.ok p, s₁) => (⟨200, .product p⟩, s₁)
  | (.error (.notFound m), s₁) => (⟨404, .detail m⟩, s₁)
  | (.error _, s₁) => (⟨500, .internal⟩, s₁)

/-- Handler for `DELETE /products/\x7bid\x7d` of the controllers router: as in `MainApp`. -/
def delete (s : Store) (id : Nat) : Response × Store :=
  match ProductUsecase.delete s id with
  | (.ok _, s₁) => (⟨204, .empty⟩, s₁)
  | (.error (.notFound m), s₁) => (⟨404, .detail m⟩, s₁)
  | (.error _, s₁) => (⟨500, .internal⟩, s₁)

end Controllers

/-- Store well-formedness: every persisted identifier is below the
next identifier the store will assign, and identifiers are pairwise
distinct.  Both hold of the empty store and are preserved by the
store's primitive operations. -/
def Store.wf (s : Store) : Prop :=
  (∀ d ∈ s.docs, d.id < s.nextId) ∧ (s.docs.map Doc.id).Nodup

instance (s : Store) : Decidable s.wf := by
  unfold Store.wf
  infer_instance

/-- The spec's data-model invariant: no two products share a name. -/
def namesUnique (s : Store) : Prop :=
  (s.docs.map Doc.name).Nodup

instance (s : Store) : Decidable (namesUnique s) := by
  unfold namesUnique
  infer_instance

/-- A concrete store holding products "a" (price 5) and "b" (price 2),
reachable from the empty store by two successful creates. -/
def sampleStore : Store :=
  ⟨[⟨0, "a", 5, none⟩, ⟨1, "b", 2, none⟩], 2⟩

lemma matches_byId {id : Nat} {x : Doc} :
    (DocFilter.byId id).matches x = (x.id == id) := rfl

lemma matches_byId_false {id : Nat} {x : Doc} (h : x.id ≠ id) :
    (DocFilter.byId id).matches x = false := by
  rw [matches_byId]
  exact beq_eq_false_iff_ne.mpr h

lemma matches_byName_false {n : String} {x : Doc} (h : x.name ≠ n) :
    (DocFilter.byName n).matches x = false := by
  show (x.name == n) = false
  exact beq_eq_false_iff_ne.mpr h

lemma find?_eq_none_of_all_false {p : Doc → Bool} {l : List Doc}
    (h : ∀ x ∈ l, p x = false) : l.find? p = none :=
  List.find?_eq_none.mpr fun x hx => by simp [h x hx]

lemma any_eq_false_of_all_false {p : Doc → Bool} {l : List Doc}
    (h : ∀ x ∈ l, p x = false) : l.any p = false := by
  rw [List.any_eq_false]
  intro x hx
  simp [h x hx]

lemma any_of_find?_some {p : Doc → Bool} {l : List Doc} {d : Doc}
    (h : l.find? p = some d) : l.any p = true :=
  List.any_eq_true.mpr ⟨d, List.mem_of_find?_eq_some h, List.find?_some h⟩

lemma find?_middle {p : Doc → Bool} (pre : List Doc) (d : Doc) (post : List Doc)
    (hpre : ∀ x ∈ pre, p x = false) (hd : p d = true) :
    (pre ++ d :: post).find? p = some d := by
  rw [List.find?_append, find?_eq_none_of_all_false hpre, Option.none_or]
  exact List.find?_cons_of_pos post hd

lemma find?_decomp {p : Doc → Bool} :
    ∀ {l : List Doc} {d : Doc}, l.find? p = some d →
      ∃ pre post, l = pre ++ d :: post ∧ (∀ x ∈ pre, p x = false) := by
  intro l
  induction l with
  | nil => intro d h; simp at h
  | cons a as ih =>
    intro d h
    by_cases ha : p a
    · rw [List.find?_cons_of_pos as ha] at h
      cases h
      exact ⟨[], as, rfl, by simp⟩
    · rw [List.find?_cons_of_neg as ha] at h
      obtain ⟨pre, post, heq, hpre⟩ := ih h
      refine ⟨a :: pre, post, by rw [heq, List.cons_append], ?_⟩
      intro x hx
      rcases List.mem_cons.mp hx with hx | hx
      · subst hx; simpa using ha
      · exact hpre x hx

lemma setFirst_eq_of_all_false (f : DocFilter) (u : ProductUpdate) :
    ∀ l : List Doc, (∀ x ∈ l, f.matches x = false) → setFirst f u l = l := by
  intro l
  induction l with
  | nil => intro _; rfl
  | cons a as ih =>
    intro h
    have ha := h a (List.mem_cons_self a as)
    simp only [setFirst, ha, Bool.false_eq_true, if_false]
    rw [ih fun x hx => h x (List.mem_cons_of_mem a hx)]

lemma setFirst_append (f : DocFilter) (u : ProductUpdate) (d : Doc) :
    ∀ pre : List Doc, ∀ post : List Doc,
      (∀ x ∈ pre, f.matches x = false) → f.matches d = true →
      setFirst f u (pre ++ d :: post) = pre ++ applySet u d :: post := by
  intro pre
  induction pre with
  | nil =>
    intro post _ hd
    simp only [List.nil_append, setFirst, hd, if_true]
  | cons a as ih =>
    intro post h hd
    have ha := h a (List.mem_cons_self a as)
    simp only [List.cons_append, setFirst, ha, Bool.false_eq_true, if_false]
    exact congrArg (fun t => a :: t)
      (ih post (fun x hx => h x (List.mem_cons_of_mem a hx)) hd)

lemma removeFirst_eq_of_all_false (f : DocFilter) :
    ∀ l : List Doc, (∀ x ∈ l, f.matches x = false) → removeFirst f l = l := by
  intro l
  induction l with
  | nil => intro _; rfl
  | cons a as ih =>
    intro h
    have ha := h a (List.mem_cons_self a as)
    simp only [removeFirst, ha, Bool.false_eq_true, if_false]
    rw [ih fun x hx => h x (List.mem_cons_of_mem a hx)]

lemma removeFirst_append (f : DocFilter) (d : Doc) :
    ∀ pre : List Doc, ∀ post : List Doc,
      (∀ x ∈ pre, f.matches x = false) → f.matches d = true →
      removeFirst f (pre ++ d :: post) = pre ++ post := by
  intro pre
  induction pre with
  | nil =>
    intro post _ hd
    simp only [List.nil_append, removeFirst, hd, if_true]
  | cons a as ih =>
    intro post h hd
    have ha := h a (List.mem_cons_self a as)
    simp only [List.cons_append, removeFirst, ha, Bool.false_eq_true, if_false]
    exact congrArg (fun t => a :: t)
      (ih post (fun x hx => h x (List.mem_cons_of_mem a hx)) hd)

lemma removeFirst_sublist (f : DocFilter) :
    ∀ l : List Doc, List.Sublist (removeFirst f l) l := by
  intro l
  induction l with
  | nil => simp [removeFirst]
  | cons a as ih =>
    by_cases h : f.matches a
    · simp only [removeFirst, h, if_true]
      exact List.sublist_cons_self a as
    · simp only [removeFirst, h, Bool.false_eq_true, if_false]
      exact List.Sublist.cons₂ a ih

/-- The document `create` inserts for a given input and store. -/
def newDoc (s : Store) (body : ProductIn) : Doc :=
  ⟨s.nextId, body.name, body.price, none⟩

lemma create_conflict (s : Store) (body : ProductIn)
    (h : ∃ d ∈ s.docs, d.name = body.name) :
    ProductUsecase.create s body =
      (.error (.duplicate (dupMsg body.name)), s) := by
  obtain ⟨d, hd, hname⟩ := h
  unfold ProductUsecase.create
  cases hf : findOne s (.byName body.name) with
  | some x => rfl
  | none =>
    exfalso
    have := List.find?_eq_none.mp hf d hd
    apply this
    show (d.name == body.name) = true
    exact beq_iff_eq.mpr hname

lemma create_ok (s : Store) (body : ProductIn) (hwf : s.wf)
    (h : ∀ d ∈ s.docs, d.name ≠ body.name) :
    ProductUsecase.create s body =
      (.ok (newDoc s body),
       ⟨s.docs ++ [newDoc s body], s.nextId + 1⟩) := by
  have hf : findOne s (.byName body.name) = none :=
    find?_eq_none_of_all_false fun x hx => matches_byName_false (h x hx)
  have hre : findOne ⟨s.docs ++ [newDoc s body], s.nextId + 1⟩
      (.byId s.nextId) = some (newDoc s body) := by
    show (s.docs ++ newDoc s body :: []).find? (DocFilter.byId s.nextId).matches
      = some (newDoc s body)
    refine find?_middle s.docs (newDoc s body) []
      (fun x hx => matches_byId_false (Nat.ne_of_lt (hwf.1 x hx))) ?_
    show (s.nextId == s.nextId) = true
    exact beq_self_eq_true s.nextId
  unfold ProductUsecase.create
  rw [hf]
  show (match findOne ⟨s.docs ++ [newDoc s body], s.nextId + 1⟩
      (.byId s.nextId) with
    | some created => (Except.ok created,
        (⟨s.docs ++ [newDoc s body], s.nextId + 1⟩ : Store))
    | none => (Except.error Err.internal,
        (⟨s.docs ++ [newDoc s body], s.nextId + 1⟩ : Store))) = _
  rw [hre]

lemma get_no_match (s : Store) (id : Nat)
    (h : ∀ x ∈ s.docs, x.id ≠ id) :
    ProductUsecase.get s id = (.error (.notFound (notFoundMsg id)), s) := by
  have hf : findOne s (.byId id) = none :=
    find?_eq_none_of_all_false fun x hx => matches_byId_false (h x hx)
  unfold ProductUsecase.get
  rw [hf]

lemma update_no_match (s : Store) (id : Nat) (u : ProductUpdate)
    (h : ∀ x ∈ s.docs, x.id ≠ id) :
    ProductUsecase.update s id u = (.error (.notFound (notFoundMsg id)), s) := by
  have hall : ∀ x ∈ s.docs, (DocFilter.byId id).matches x = false :=
    fun x hx => matches_byId_false (h x hx)
  have hany : s.docs.any (DocFilter.byId id).matches = false :=
    any_eq_false_of_all_false hall
  unfold ProductUsecase.update updateOne
  simp only [hany, if_false, setFirst_eq_of_all_false _ _ _ hall]
  rfl

lemma delete_no_match (s : Store) (id : Nat)
    (h : ∀ x ∈ s.docs, x.id ≠ id) :
    ProductUsecase.delete s id = (.error (.notFound (notFoundMsg id)), s) := by
  have hall : ∀ x ∈ s.docs, (DocFilter.byId id).matches x = false :=
    fun x hx => matches_byId_false (h x hx)
  have hany : s.docs.any (DocFilter.byId id).matches = false :=
    any_eq_false_of_all_false hall
  unfold ProductUsecase.delete deleteOne
  simp only [hany, if_false, removeFirst_eq_of_all_false _ _ hall]
  rfl

lemma update_success (s : Store) (id : Nat) (u : ProductUpdate) (d : Doc)
    (h : findOne s (.byId id) = some d) :
    ∃ pre post,
      s.docs = pre ++ d :: post ∧
      (∀ x ∈ pre, x.id ≠ id) ∧
      d.id = id ∧
      ProductUsecase.update s id u =
        (.ok (applySet u d), ⟨pre ++ applySet u d :: post, s.nextId⟩) := by
  obtain ⟨pre, post, heq, hpre⟩ := find?_decomp h
  have hd : (DocFilter.byId id).matches d = true := List.find?_some h
  have hdid : d.id = id := beq_iff_eq.mp hd
  have hpre' : ∀ x ∈ pre, x.id ≠ id := by
    intro x hx
    have := hpre x hx
    rw [matches_byId] at this
    exact beq_eq_false_iff_ne.mp this
  refine ⟨pre, post, heq, hpre', hdid, ?_⟩
  have hany : s.docs.any (DocFilter.byId id).matches = true :=
    any_of_find?_some h
  have hset : setFirst (.byId id) u s.docs = pre ++ applySet u d :: post := by
    rw [heq]
    exact setFirst_append _ _ _ pre post hpre hd
  have hre : findOne ⟨pre ++ applySet u d :: post, s.nextId⟩ (.byId id)
      = some (applySet u d) := by
    show (pre ++ applySet u d :: post).find? (DocFilter.byId id).matches
      = some (applySet u d)
    refine find?_middle pre (applySet u d) post hpre ?_
    show ((applySet u d).id == id) = true
    exact beq_iff_eq.mpr hdid
  unfold ProductUsecase.update updateOne
  simp only [hany, if_true, hset]
  show (if (1 == 0) = true then _ else
    match findOne ⟨pre ++ applySet u d :: post, s.nextId⟩ (.byId id) with
    | some updated_product => (Except.ok updated_product,
        (⟨pre ++ applySet u d :: post, s.nextId⟩ : Store))
    | none => (Except.error Err.internal,
        (⟨pre ++ applySet u d :: post, s.nextId⟩ : Store))) = _
  rw [hre]
  rfl

lemma delete_success (s : Store) (id : Nat) (d : Doc)
    (h : findOne s (.byId id) = some d) :
    ∃ pre post,
      s.docs = pre ++ d :: post ∧
      (∀ x ∈ pre, x.id ≠ id) ∧
      d.id = id ∧
      ProductUsecase.delete s id = (.ok (), ⟨pre ++ post, s.nextId⟩) := by
  obtain ⟨pre, post, heq, hpre⟩ := find?_decomp h
  have hd : (DocFilter.byId id).matches d = true := List.find?_some h
  have hdid : d.id = id := beq_iff_eq.mp hd
  have hpre' : ∀ x ∈ pre, x.id ≠ id := by
    intro x hx
    have := hpre x hx
    rw [matches_byId] at this
    exact beq_eq_false_iff_ne.mp this
  refine ⟨pre, post, heq, hpre', hdid, ?_⟩
  have hany : s.docs.any (DocFilter.byId id).matches = true :=
    any_of_find?_some h
  have hrem : removeFirst (.byId id) s.docs = pre ++ post := by
    rw [heq]
    exact removeFirst_append _ _ pre post hpre hd
  unfold ProductUsecase.delete deleteOne
  simp only [hany, if_true, hrem]
  rfl

/-- The `$gte` entry of a filter's price condition, if any. -/
def DocFilter.priceGte : DocFilter → Option Int
  | .byPrice c => c.gte
  | _ => none

/-- The `$lte` entry of a filter's price condition, if any. -/
def DocFilter.priceLte : DocFilter → Option Int
  | .byPrice c => c.lte
  | _ => none

/-- Whether a filter constrains the price field at all. -/
def DocFilter.constrainsPrice : DocFilter → Bool
  | .byPrice _ => true
  | _ => false

lemma create_snd_of_some (s : Store) (body : ProductIn) (d : Doc)
    (hf : findOne s (.byName body.name) = some d) :
    (ProductUsecase.create s body).2 = s := by
  unfold ProductUsecase.create
  rw [hf]

lemma create_snd_of_none (s : Store) (body : ProductIn)
    (hf : findOne s (.byName body.name) = none) :
    (ProductUsecase.create s body).2 =
      ⟨s.docs ++ [newDoc s body], s.nextId + 1⟩ := by
  unfold ProductUsecase.create
  rw [hf]
  dsimp only
  split <;> rfl

lemma update_snd (s : Store) (id : Nat) (u : ProductUpdate) :
    (ProductUsecase.update s id u).2 =
      ⟨setFirst (.byId id) u s.docs, s.nextId⟩ := by
  unfold ProductUsecase.update updateOne
  dsimp only
  repeat' split
  all_goals rfl

lemma delete_snd (s : Store) (id : Nat) :
    (ProductUsecase.delete s id).2 =
      ⟨removeFirst (.byId id) s.docs, s.nextId⟩ := by
  unfold ProductUsecase.delete deleteOne
  dsimp only
  split <;> rfl

lemma map_name_setFirst (f : DocFilter) (u : ProductUpdate)
    (hn : u.name = none) :
    ∀ l : List Doc, (setFirst f u l).map Doc.name = l.map Doc.name := by
  intro l
  induction l with
  | nil => rfl
  | cons a as ih =>
    by_cases h : f.matches a = true
    · simp only [setFirst, h, if_true, List.map_cons]
      congr 1
      show u.name.getD a.name = a.name
      rw [hn]
      rfl
    · have h' : f.matches a = false := Bool.eq_false_iff.mpr h
      simp only [setFirst, h', Bool.false_eq_true, if_false, List.map_cons, ih]

lemma sat_bounds {c : PriceCond} {x : Int} (h : c.sat x = true) :
    (∀ a, c.gte = some a → a ≤ x) ∧ (∀ b, c.lte = some b → x ≤ b) := by
  rw [PriceCond.sat, Bool.and_eq_true] at h
  constructor
  · intro a ha
    have h1 := h.1
    rw [ha] at h1
    exact of_decide_eq_true h1
  · intro b hb
    have h2 := h.2
    rw [hb] at h2
    exact of_decide_eq_true h2

lemma matches_mkQueryFilter {mn mx : Option Int} {d : Doc}
    (h : (ProductUsecase.mkQueryFilter mn mx).matches d = true) :
    (∀ a, mn = some a → a ≤ d.price) ∧ (∀ b, mx = some b → d.price ≤ b) := by
  by_cases hc : (mn.isSome || mx.isSome) = true
  · rw [ProductUsecase.mkQueryFilter, if_pos hc] at h
    exact sat_bounds h
  · constructor
    · intro a ha
      rw [ha] at hc
      simp at hc
    · intro b hb
      rw [hb] at hc
      simp at hc

/-- C1 (counterexample): in the store reached by creating products
"a" and "b" from the empty store — which satisfies name-uniqueness and
well-formedness — an Update that sets the name of product 1 to "a"
succeeds and leaves two persisted products named "a", so Update does
not preserve the no-two-products-share-a-name invariant. -/
theorem C1_counterexample :
    (ProductUsecase.create ((ProductUsecase.create ⟨[], 0⟩ ⟨"a", 5⟩).2)
       ⟨"b", 2⟩).2 = sampleStore ∧
    namesUnique sampleStore ∧
    Store.wf sampleStore ∧
    (ProductUsecase.update sampleStore 1 ⟨some "a", none, some 7⟩).1 =
      .ok ⟨1, "a", 2, some 7⟩ ∧
    ¬ namesUnique
      (ProductUsecase.update sampleStore 1 ⟨some "a", none, some 7⟩).2 := by
  decide

/-- C1 (amended): from any store whose product names are pairwise
distinct, Create and Delete preserve the invariant, and Update
preserves it whenever the partial body leaves the name field unset;
an Update whose field-set contains the name may violate it. -/
theorem C1_name_uniqueness (s : Store) (h : namesUnique s) :
    (∀ body, namesUnique (ProductUsecase.create s body).2) ∧
    (∀ id, namesUnique (ProductUsecase.delete s id).2) ∧
    (∀ id body, body.name = none →
      namesUnique (ProductUsecase.update s id body).2) := by
  refine ⟨?_, ?_, ?_⟩
  · intro body
    cases hf : findOne s (.byName body.name) with
    | some d =>
      rw [create_snd_of_some s body d hf]
      exact h
    | none =>
      rw [create_snd_of_none s body hf]
      show ((s.docs ++ [newDoc s body]).map Doc.name).Nodup
      rw [List.map_append]
      refine List.nodup_append.mpr ⟨h, List.nodup_singleton _, ?_⟩
      intro a ha hmem
      rw [List.map_singleton, List.mem_singleton] at hmem
      subst hmem
      obtain ⟨d, hd, hdn⟩ := List.mem_map.mp ha
      have hnone := List.find?_eq_none.mp hf d hd
      apply hnone
      show (d.name == body.name) = true
      exact beq_iff_eq.mpr hdn
  · intro id
    rw [delete_snd]
    show ((removeFirst (.byId id) s.docs).map Doc.name).Nodup
    exact List.Nodup.sublist ((removeFirst_sublist _ _).map Doc.name) h
  · intro id body hn
    rw [update_snd]
    show ((setFirst (.byId id) body s.docs).map Doc.name).Nodup
    rw [map_name_setFirst _ _ hn]
    exact h

theorem C1_name_uniqueness_witness :
    namesUnique sampleStore ∧
    namesUnique (ProductUsecase.create sampleStore ⟨"c", 9⟩).2 ∧
    namesUnique (ProductUsecase.delete sampleStore 0).2 ∧
    namesUnique (ProductUsecase.update sampleStore 1 ⟨none, some 9, some 3⟩).2 :=
  have h : namesUnique sampleStore := by decide
  ⟨h, (C1_name_uniqueness sampleStore h).1 ⟨"c", 9⟩,
   (C1_name_uniqueness sampleStore h).2.1 0,
   (C1_name_uniqueness sampleStore h).2.2 1 ⟨none, some 9, some 3⟩ rfl⟩

/-- C2: for a well-formed store, Create fails with a Conflict error
whose message contains the offending name and leaves the store
untouched when some persisted product already carries the input's
name; otherwise it inserts exactly one document (the input's fields
with the assigned identifier and a null timestamp) and returns it. -/
theorem C2_create (s : Store) (body : ProductIn) (hwf : s.wf) :
    ((∃ d ∈ s.docs, d.name = body.name) →
      ProductUsecase.create s body =
        (.error (.duplicate (dupMsg body.name)), s)) ∧
    ((∀ d ∈ s.docs, d.name ≠ body.name) →
      ProductUsecase.create s body =
        (.ok (newDoc s body),
         ⟨s.docs ++ [newDoc s body], s.nextId + 1⟩)) ∧
    (∃ pre post, dupMsg body.name = pre ++ body.name ++ post) := by
  refine ⟨fun h => create_conflict s body h,
          fun h => create_ok s body hwf h,
          ⟨"Produto " ++ apos, apos ++ " já existe.", ?_⟩⟩
  simp only [dupMsg, String.append_assoc]

theorem C2_create_witness :
    ProductUsecase.create sampleStore ⟨"a", 3⟩ =
      (.error (.duplicate (dupMsg "a")), sampleStore) ∧
    ProductUsecase.create sampleStore ⟨"c", 3⟩ =
      (.ok (newDoc sampleStore ⟨"c", 3⟩),
       ⟨sampleStore.docs ++ [newDoc sampleStore ⟨"c", 3⟩], 3⟩) :=
  ⟨(C2_create sampleStore ⟨"a", 3⟩ (by decide)).1 (by decide),
   (C2_create sampleStore ⟨"c", 3⟩ (by decide)).2.1 (by decide)⟩

/-- C3: the query filter carries an inclusive lower bound exactly when
`min_price` is given and an inclusive upper bound exactly when
`max_price` is given, and no price constraint when neither is; the
result has at most 100 products, each within the given bounds, and is
empty (with no error) whenever the bounds are inverted. -/
theorem C3_query (s : Store) (mn mx : Option Int) :
    (ProductUsecase.mkQueryFilter mn mx).priceGte = mn ∧
    (ProductUsecase.mkQueryFilter mn mx).priceLte = mx ∧
    ((ProductUsecase.mkQueryFilter mn mx).constrainsPrice
      = (mn.isSome || mx.isSome)) ∧
    (ProductUsecase.query s mn mx).1.length ≤ 100 ∧
    (∀ p ∈ (ProductUsecase.query s mn mx).1,
      (∀ a, mn = some a → a ≤ p.price) ∧
      (∀ b, mx = some b → p.price ≤ b)) ∧
    (∀ a b, mn = some a → mx = some b → b < a →
      (ProductUsecase.query s mn mx).1 = []) := by
  refine ⟨?_, ?_, ?_, ?_, ?_, ?_⟩
  · cases mn <;> cases mx <;> rfl
  · cases mn <;> cases mx <;> rfl
  · cases mn <;> cases mx <;> rfl
  · exact List.length_take_le 100 _
  · intro p hp
    have hmem : p ∈ s.docs.filter
        (ProductUsecase.mkQueryFilter mn mx).matches :=
      List.mem_of_mem_take hp
    exact matches_mkQueryFilter (List.mem_filter.mp hmem).2
  · intro a b ha hb hab
    subst ha
    subst hb
    show ((s.docs.filter
      (ProductUsecase.mkQueryFilter (some a) (some b)).matches).take 100) = []
    have hnil : s.docs.filter
        (ProductUsecase.mkQueryFilter (some a) (some b)).matches = [] := by
      rw [List.filter_eq_nil_iff]
      intro x _ hmat
      have hb' := sat_bounds
        (show PriceCond.sat ⟨some a, some b⟩ x.price = true from hmat)
      have h1 := hb'.1 a rfl
      have h2 := hb'.2 b rfl
      omega
    rw [hnil]
    rfl

theorem C3_query_witness :
    (ProductUsecase.query sampleStore (some 10) (some 3)).1 = [] ∧
    (ProductUsecase.query sampleStore (some 3) (some 10)).1.length ≤ 100 :=
  ⟨(C3_query sampleStore (some 10) (some 3)).2.2.2.2.2 10 3 rfl rfl
     (by decide),
   (C3_query sampleStore (some 3) (some 10)).2.2.2.1⟩

/-- C10: Get and Query are read-only — on any identifier and any pair
of optional price bounds, the store they hand back is the store they
were given, whether the lookup succeeds or fails. -/
theorem C10_read_only (s : Store) (id : Nat) (mn mx : Option Int) :
    (ProductUsecase.get s id).2 = s ∧
    (ProductUsecase.query s mn mx).2 = s := by
  constructor
  · unfold ProductUsecase.get
    split <;> rfl
  · rfl

lemma patch_ok_characterization (s : Store) (now id : Nat)
    (body : ProductUpdate) (p : Doc) (s' : Store)
    (h : MainApp.patch s now id body = (⟨200, .product p⟩, s')) :
    ∃ d, findOne s (.byId id) = some d ∧
      p = applySet (injectTimestamp now body) d ∧
      findOne s' (.byId id) = some p := by
  cases hf : findOne s (.byId id) with
  | none =>
    have hnm : ∀ x ∈ s.docs, x.id ≠ id := fun x hx he =>
      (List.find?_eq_none.mp hf x hx) (beq_iff_eq.mpr he)
    have hupd := update_no_match s id (injectTimestamp now body) hnm
    have hpatch : MainApp.patch s now id body =
        (⟨404, .detail (notFoundMsg id)⟩, s) := by
      unfold MainApp.patch
      rw [hupd]
    rw [hpatch] at h
    have h404 : (404 : Nat) = 200 := congrArg (fun r => r.1.status) h
    exact absurd h404 (by decide)
  | some d =>
    obtain ⟨pre, post, heq, hpre, hdid, hupd⟩ :=
      update_success s id (injectTimestamp now body) d hf
    have hpatch : MainApp.patch s now id body =
        (⟨200, .product (applySet (injectTimestamp now body) d)⟩,
         ⟨pre ++ applySet (injectTimestamp now body) d :: post, s.nextId⟩) := by
      unfold MainApp.patch
      rw [hupd]
    rw [hpatch] at h
    have h1 : (⟨200, .product (applySet (injectTimestamp now body) d)⟩
        : Response) = ⟨200, .product p⟩ := (Prod.ext_iff.mp h).1
    have h2 : (⟨pre ++ applySet (injectTimestamp now body) d :: post,
        s.nextId⟩ : Store) = s' := (Prod.ext_iff.mp h).2
    have hbody : RespBody.product (applySet (injectTimestamp now body) d)
        = RespBody.product p := congrArg Response.body h1
    have hp : applySet (injectTimestamp now body) d = p :=
      RespBody.product.inj hbody
    refine ⟨d, rfl, hp.symm, ?_⟩
    rw [← h2, ← hp]
    show (pre ++ applySet (injectTimestamp now body) d :: post).find?
      (DocFilter.byId id).matches = some _
    refine find?_middle pre _ post
      (fun x hx => matches_byId_false (hpre x hx)) ?_
    show ((applySet (injectTimestamp now body) d).id == id) = true
    exact beq_iff_eq.mpr hdid

/-- C4: a PATCH whose body omits `updated_at` has the current time
injected before the usecase runs, so on success the stored document's
timestamp is exactly the injection time (hence at least the time just
before the call); a PATCH whose body supplies `updated_at` stores that
value verbatim. -/
theorem C4_patch_timestamp (s : Store) (now id : Nat) (body : ProductUpdate) :
    (body.updated_at = none →
      ∀ p s', MainApp.patch s now id body = (⟨200, .product p⟩, s') →
        p.updated_at = some now ∧
        (∀ u, p.updated_at = some u → now ≤ u) ∧
        findOne s' (.byId id) = some p) ∧
    (∀ t, body.updated_at = some t →
      ∀ p s', MainApp.patch s now id body = (⟨200, .product p⟩, s') →
        p.updated_at = some t ∧
        findOne s' (.byId id) = some p) := by
  constructor
  · intro hnone p s' h
    obtain ⟨d, hf, hp, hre⟩ := patch_ok_characterization s now id body p s' h
    subst hp
    have hts : (applySet (injectTimestamp now body) d).updated_at
        = some now := by
      simp [injectTimestamp, hnone, applySet]
    refine ⟨hts, fun u hu => ?_, hre⟩
    rw [hts] at hu
    exact Nat.le_of_eq (Option.some.inj hu)
  · intro t ht p s' h
    obtain ⟨d, hf, hp, hre⟩ := patch_ok_characterization s now id body p s' h
    subst hp
    refine ⟨?_, hre⟩
    simp [injectTimestamp, ht, applySet]

theorem C4_patch_timestamp_witness :
    (⟨1, "b", 9, some 77⟩ : Doc).updated_at = some 77 ∧
    (⟨1, "b", 9, some 5⟩ : Doc).updated_at = some 5 :=
  ⟨((C4_patch_timestamp sampleStore 77 1 ⟨none, some 9, none⟩).1 rfl
      ⟨1, "b", 9, some 77⟩
      (⟨[⟨0, "a", 5, none⟩, ⟨1, "b", 9, some 77⟩], 2⟩ : Store)
      (by decide)).1,
   ((C4_patch_timestamp sampleStore 77 1 ⟨none, some 9, some 5⟩).2 5 rfl
      ⟨1, "b", 9, some 5⟩
      (⟨[⟨0, "a", 5, none⟩, ⟨1, "b", 9, some 5⟩], 2⟩ : Store)
      (by decide)).1⟩

/-- C5: Update on an existing product applies exactly the non-null
fields of the partial body to the first document matching the
identifier — a null field keeps the document's prior value, the
identifier is untouched, and every other document is unchanged; in
particular a body whose name is null leaves the name as it was. -/
theorem C5_update_sparse (s : Store) (id : Nat) (body : ProductUpdate)
    (d : Doc) (h : findOne s (.byId id) = some d) :
    ∃ pre post,
      s.docs = pre ++ d :: post ∧
      ProductUsecase.update s id body =
        (.ok (applySet body d),
         ⟨pre ++ applySet body d :: post, s.nextId⟩) ∧
      (applySet body d).id = d.id ∧
      (applySet body d).name = body.name.getD d.name ∧
      (applySet body d).price = body.price.getD d.price ∧
      ((applySet body d).updated_at =
        match body.updated_at with
        | some t => some t
        | none => d.updated_at) ∧
      (body.name = none → (applySet body d).name = d.name) := by
  obtain ⟨pre, post, heq, hpre, hdid, hupd⟩ := update_success s id body d h
  refine ⟨pre, post, heq, hupd, rfl, rfl, rfl, rfl, fun hn => ?_⟩
  show body.name.getD d.name = d.name
  rw [hn]
  rfl

theorem C5_update_sparse_witness :
    (ProductUsecase.update sampleStore 1 ⟨none, some 9, some 7⟩).1 =
      .ok ⟨1, "b", 9, some 7⟩ := by
  obtain ⟨pre, post, _, hupd, _⟩ :=
    C5_update_sparse sampleStore 1 ⟨none, some 9, some 7⟩
      ⟨1, "b", 2, none⟩ (by decide)
  rw [hupd]
  rfl

/-- C6: when no persisted document carries the identifier, Get, Update
and Delete each fail with a NotFound error whose message contains the
identifier and leave the store unchanged; after a successful Delete of
an identifier on a well-formed store, a further Get or Delete on the
same identifier fails with NotFound. -/
theorem C6_not_found (s : Store) (id : Nat) :
    ((∀ x ∈ s.docs, x.id ≠ id) →
      ProductUsecase.get s id = (.error (.notFound (notFoundMsg id)), s) ∧
      (∀ body, ProductUsecase.update s id body =
        (.error (.notFound (notFoundMsg id)), s)) ∧
      ProductUsecase.delete s id =
        (.error (.notFound (notFoundMsg id)), s)) ∧
    (∃ pre post, notFoundMsg id = pre ++ toString id ++ post) ∧
    (s.wf → ∀ s', ProductUsecase.delete s id = (.ok (), s') →
      ProductUsecase.get s' id =
        (.error (.notFound (notFoundMsg id)), s') ∧
      ProductUsecase.delete s' id =
        (.error (.notFound (notFoundMsg id)), s')) := by
  refine ⟨fun h => ⟨get_no_match s id h,
                    fun body => update_no_match s id body h,
                    delete_no_match s id h⟩,
          ⟨"Produto com id ", " não encontrado.", rfl⟩,
          fun hwf s' hdel => ?_⟩
  cases hf : findOne s (.byId id) with
  | none =>
    have hnm : ∀ x ∈ s.docs, x.id ≠ id := fun x hx he =>
      (List.find?_eq_none.mp hf x hx) (beq_iff_eq.mpr he)
    rw [delete_no_match s id hnm] at hdel
    simp at hdel
  | some d =>
    obtain ⟨pre, post, heq, hpre, hdid, hdel'⟩ := delete_success s id d hf
    rw [hdel'] at hdel
    have hs' : (⟨pre ++ post, s.nextId⟩ : Store) = s' :=
      (Prod.ext_iff.mp hdel).2
    have hnod : ((pre ++ d :: post).map Doc.id).Nodup := heq ▸ hwf.2
    rw [List.map_append, List.map_cons] at hnod
    have hmid := List.nodup_middle.mp hnod
    have hnotmem : d.id ∉ pre.map Doc.id ++ post.map Doc.id :=
      (List.nodup_cons.mp hmid).1
    have hpost : ∀ x ∈ post, x.id ≠ id := by
      intro x hx he
      apply hnotmem
      rw [List.mem_append]
      right
      exact List.mem_map.mpr ⟨x, hx, he.trans hdid.symm⟩
    have hall : ∀ x ∈ pre ++ post, x.id ≠ id := by
      intro x hx
      rcases List.mem_append.mp hx with hx | hx
      · exact hpre x hx
      · exact hpost x hx
    rw [← hs']
    exact ⟨get_no_match _ id hall, delete_no_match _ id hall⟩

theorem C6_not_found_witness :
    ProductUsecase.get sampleStore 9 =
      (.error (.notFound (notFoundMsg 9)), sampleStore) ∧
    ProductUsecase.get (⟨[⟨0, "a", 5, none⟩], 2⟩ : Store) 1 =
      (.error (.notFound (notFoundMsg 1)), ⟨[⟨0, "a", 5, none⟩], 2⟩) ∧
    ProductUsecase.delete (⟨[⟨0, "a", 5, none⟩], 2⟩ : Store) 1 =
      (.error (.notFound (notFoundMsg 1)), ⟨[⟨0, "a", 5, none⟩], 2⟩) :=
  ⟨((C6_not_found sampleStore 9).1 (by decide)).1,
   ((C6_not_found sampleStore 1).2.2 (by decide)
      (⟨[⟨0, "a", 5, none⟩], 2⟩ : Store) (by decide)).1,
   ((C6_not_found sampleStore 1).2.2 (by decide)
      (⟨[⟨0, "a", 5, none⟩], 2⟩ : Store) (by decide)).2⟩

/-- C8: after a successful Create on a well-formed store, Get with the
identifier of the product Create returned succeeds on the resulting
store and returns a product equal in every field to the one Create
returned, leaving the store unchanged. -/
theorem C8_roundtrip (s : Store) (body : ProductIn) (hwf : s.wf)
    (p : Doc) (s' : Store)
    (h : ProductUsecase.create s body = (.ok p, s')) :
    ProductUsecase.get s' p.id = (.ok p, s') := by
  cases hf : findOne s (.byName body.name) with
  | some d =>
    have hf' : List.find? (DocFilter.byName body.name).matches s.docs
        = some d := hf
    have hmat := List.find?_some hf'
    have hdn : d.name = body.name := beq_iff_eq.mp hmat
    rw [create_conflict s body
      ⟨d, List.mem_of_find?_eq_some hf, hdn⟩] at h
    simp at h
  | none =>
    have hok := create_ok s body hwf (fun x hx he =>
      (List.find?_eq_none.mp hf x hx) (beq_iff_eq.mpr he))
    rw [hok] at h
    have h1 : newDoc s body = p := Except.ok.inj (Prod.ext_iff.mp h).1
    have h2 : (⟨s.docs ++ [newDoc s body], s.nextId + 1⟩ : Store) = s' :=
      (Prod.ext_iff.mp h).2
    subst h1
    subst h2
    have hre : findOne (⟨s.docs ++ [newDoc s body], s.nextId + 1⟩ : Store)
        (.byId (newDoc s body).id) = some (newDoc s body) := by
      show (s.docs ++ newDoc s body :: []).find? _ = _
      refine find?_middle s.docs _ []
        (fun x hx => matches_byId_false (Nat.ne_of_lt (hwf.1 x hx))) ?_
      show (s.nextId == s.nextId) = true
      exact beq_self_eq_true s.nextId
    unfold ProductUsecase.get
    rw [hre]

theorem C8_roundtrip_witness :
    ProductUsecase.get
        (⟨sampleStore.docs ++ [newDoc sampleStore ⟨"c", 3⟩], 3⟩ : Store)
        (Doc.mk 2 "c" 3 none).id =
      (.ok ⟨2, "c", 3, none⟩,
       ⟨sampleStore.docs ++ [newDoc sampleStore ⟨"c", 3⟩], 3⟩) :=
  C8_roundtrip sampleStore ⟨"c", 3⟩ (by decide) ⟨2, "c", 3, none⟩ _
    (by decide)

/-- C9: the PATCH handler's timestamp injection makes the field-set
passed to update-one always non-empty — its `updated_at` entry is
present whether or not the body supplied one — so every successful
update through the HTTP surface stores a non-null `updated_at` equal
to the injected value. -/
theorem C9_update_data_nonempty (s : Store) (now id : Nat)
    (body : ProductUpdate) :
    (injectTimestamp now body).updated_at.isSome = true ∧
    (∀ p s', MainApp.patch s now id body = (⟨200, .product p⟩, s') →
      p.updated_at = (injectTimestamp now body).updated_at ∧
      p.updated_at.isSome = true) := by
  have hsome : (injectTimestamp now body).updated_at.isSome = true := by
    cases hb : body.updated_at with
    | none => simp [injectTimestamp, hb]
    | some t => simp [injectTimestamp, hb]
  refine ⟨hsome, fun p s' h => ?_⟩
  obtain ⟨d, hf, hp, hre⟩ := patch_ok_characterization s now id body p s' h
  subst hp
  have hts : (applySet (injectTimestamp now body) d).updated_at =
      (injectTimestamp now body).updated_at := by
    cases hu : (injectTimestamp now body).updated_at with
    | none =>
      rw [hu] at hsome
      simp at hsome
    | some t => simp [applySet, hu]
  refine ⟨hts, ?_⟩
  rw [hts]
  exact hsome

theorem C9_update_data_nonempty_witness :
    (injectTimestamp 77 (⟨none, none, none⟩ : ProductUpdate)).updated_at.isSome
      = true ∧
    (⟨1, "b", 2, some 77⟩ : Doc).updated_at.isSome = true :=
  ⟨(C9_update_data_nonempty sampleStore 77 1 ⟨none, none, none⟩).1,
   ((C9_update_data_nonempty sampleStore 77 1 ⟨none, none, none⟩).2
      ⟨1, "b", 2, some 77⟩
      (⟨[⟨0, "a", 5, none⟩, ⟨1, "b", 2, some 77⟩], 2⟩ : Store)
      (by decide)).2⟩

/-- C7 (counterexample): on the store already holding a product named
"a", the usecase raises a Conflict for a second create of "a", yet the
`post` handler of `src/store/controllers/product.py` — which wraps
`usecase.create` in no `try/except` — returns the framework's generic
server-error response (status 500), not status 400 with the message as
detail; so the Conflict-to-400 mapping is not performed by the HTTP
handlers of all five operations. -/
theorem C7_counterexample :
    (ProductUsecase.create sampleStore ⟨"a", 3⟩).1 =
      .error (.duplicate (dupMsg "a")) ∧
    Controllers.post sampleStore ⟨"a", 3⟩ = (⟨500, .internal⟩, sampleStore) ∧
    (Controllers.post sampleStore ⟨"a", 3⟩).1.status ≠ 400 := by
  decide

/-- C7 (amended): whenever the usecase raises a domain error, the
handlers of `src/store/main.py` map Conflict to status 400 and
NotFound to status 404, each with the usecase's message as the
response's detail body, and the `get`, `patch` and `delete` handlers
of `src/store/controllers/product.py` map NotFound to 404 likewise;
the `post` handler of the controllers router, however, performs no
mapping — a Conflict there escapes as a generic server error. -/
theorem C7_error_mapping (s : Store) (id now : Nat) (body : ProductIn)
    (ub : ProductUpdate) :
    (∀ m s₁, ProductUsecase.create s body = (.error (.duplicate m), s₁) →
      MainApp.post s body = (⟨400, .detail m⟩, s₁)) ∧
    (∀ m s₁, ProductUsecase.get s id = (.error (.notFound m), s₁) →
      MainApp.get s id = (⟨404, .detail m⟩, s₁) ∧
      Controllers.get s id = (⟨404, .detail m⟩, s₁)) ∧
    (∀ m s₁, ProductUsecase.update s id (injectTimestamp now ub)
        = (.error (.notFound m), s₁) →
      MainApp.patch s now id ub = (⟨404, .detail m⟩, s₁) ∧
      Controllers.patch s now id ub = (⟨404, .detail m⟩, s₁)) ∧
    (∀ m s₁, ProductUsecase.delete s id = (.error (.notFound m), s₁) →
      MainApp.delete s id = (⟨404, .detail m⟩, s₁) ∧
      Controllers.delete s id = (⟨404, .detail m⟩, s₁)) ∧
    (∀ m s₁, ProductUsecase.create s body = (.error (.duplicate m), s₁) →
      Controllers.post s body = (⟨500, .internal⟩, s₁)) := by
  refine ⟨?_, ?_, ?_, ?_, ?_⟩
  · intro m s₁ h
    unfold MainApp.post
    rw [h]
  · intro m s₁ h
    constructor
    · unfold MainApp.get
      rw [h]
    · unfold Controllers.get
      rw [h]
  · intro m s₁ h
    constructor
    · unfold MainApp.patch
      rw [h]
    · unfold Controllers.patch
      rw [h]
  · intro m s₁ h
    constructor
    · unfold MainApp.delete
      rw [h]
    · unfold Controllers.delete
      rw [h]
  · intro m s₁ h
    unfold Controllers.post
    rw [h]

theorem C7_error_mapping_witness :
    MainApp.post sampleStore ⟨"a", 3⟩ =
      (⟨400, .detail (dupMsg "a")⟩, sampleStore) ∧
    MainApp.get sampleStore 9 =
      (⟨404, .detail (notFoundMsg 9)⟩, sampleStore) ∧
    Controllers.post sampleStore ⟨"a", 3⟩ = (⟨500, .internal⟩, sampleStore) :=
  ⟨(C7_error_mapping sampleStore 9 0 ⟨"a", 3⟩ ⟨none, none, none⟩).1
      (dupMsg "a") sampleStore (by decide),
   ((C7_error_mapping sampleStore 9 0 ⟨"a", 3⟩ ⟨none, none, none⟩).2.1
      (notFoundMsg 9) sampleStore (by decide)).1,
   (C7_error_mapping sampleStore 9 0 ⟨"a", 3⟩ ⟨none, none, none⟩).2.2.2.2
      (dupMsg "a") sampleStore (by decide)⟩
